import Mathlib

/-!
Shallow embedding of `tcp_fuzzer_template.cpp` and its verified properties.

The program is one translation unit with three functions: `print_usage`,
`parse_target` and `main`.  Strings (`const char*`, `std::string`) are lists of
characters; an argument string is the characters before its terminating NUL.
`main` is embedded as a function from the values its environment hands back
(the `getopt_long` results, the file system, the return values of `socket` and
`connect`) to the ordered list of calls and outputs it performs and its exit
status.
-/

namespace TcpFuzzer

/-- Strings and byte buffers (`std::string`, `const char*`). -/
abbrev Str := List Char

/-! ## Exceptions -/

/-- The `std::exception` subclasses that reach the handler of `main`:
`std::runtime_error` from `parse_target`, `std::invalid_argument` and
`std::out_of_range` from `std::stoi`, and `std::ios_base::failure` from reading
the payload file. -/
inductive Exn where
  | runtime_error (what : String)
  | invalid_argument
  | out_of_range
  | ios_failure
  deriving DecidableEq, Repr

/-- Outcome of a call that either returns or throws. -/
inductive Thrown (α : Type) where
  | ok (value : α)
  | throw (e : Exn)
  deriving DecidableEq, Repr

/-! ## Platform library: `std::string::find`, `substr`, `std::stoi` -/

/-- Library `std::string::find(ch)`: index of the first occurrence, `none` for `npos`. -/
def find : Str → Char → Option Nat
  | [], _ => none
  | c :: cs, ch => if c = ch then some 0 else (find cs ch).map (· + 1)

/-- Library `std::string::substr(pos, len)` for `pos ≤ size`. -/
def substr (s : Str) (pos len : Nat) : Str := (s.drop pos).take len

/-- Library `std::string::substr(pos)` for `pos ≤ size`: the rest of the string. -/
def substr_from (s : Str) (pos : Nat) : Str := s.drop pos

/-- Library `isspace` in the "C" locale: space, `\t`, `\n`, `\v`, `\f`, `\r`. -/
def isspace (c : Char) : Bool :=
  c.toNat = 32 || (9 ≤ c.toNat && c.toNat ≤ 13)

/-- Library `isdigit`: the decimal digits `0`..`9`. -/
def isdigit (c : Char) : Bool := 48 ≤ c.toNat && c.toNat ≤ 57

/-- Value of one decimal digit character. -/
def digit_value (c : Char) : Nat := c.toNat - 48

/-- Base-10 accumulation loop of `strtol` over a run of digits, without the
overflow clamp (the range is checked afterwards by `stoi`). -/
def accumulate (ds : Str) : Nat := ds.foldl (fun acc c => acc * 10 + digit_value c) 0

/-- Largest `int` (32 bits). -/
def INT_MAX : Int := 2147483647

/-- Smallest `int` (32 bits). -/
def INT_MIN : Int := -2147483648

/-- The optional sign `strtol` reads in front of the digits: whether it was a
minus sign, and the text after it. -/
def read_sign (s : Str) : Bool × Str :=
  match s with
  | c :: rest => if c = '-' then (true, rest) else if c = '+' then (false, rest) else (false, s)
  | [] => (false, s)

/-- Platform library `std::stoi(str)` (base 10, no `pos` out-parameter), as
specified by ISO C++ through `strtol`: leading white space is skipped, one
optional sign is read, then the longest run of decimal digits; whatever follows
the digits is ignored.  No digit at all throws `std::invalid_argument`; a value
outside the range of `int` throws `std::out_of_range`. -/
def stoi (str : Str) : Thrown Int :=
  let signed := read_sign (str.dropWhile isspace)
  let ds := signed.2.takeWhile isdigit
  if ds.isEmpty then Thrown.throw Exn.invalid_argument
  else
    let v : Int := if signed.1 then -(accumulate ds : Int) else (accumulate ds : Int)
    if v < INT_MIN || INT_MAX < v then Thrown.throw Exn.out_of_range
    else Thrown.ok v

/-! ## `parse_target` (lines 19–26) -/

/-- Source `parse_target`: split at the first colon, convert what follows with
`std::stoi`; without a colon throw `std::runtime_error`. -/
def parse_target (target : Str) : Thrown (Str × Int) :=
  let target_str := target
  match find target_str ':' with
  | none => Thrown.throw (Exn.runtime_error "Invalid target format. Use host:port")
  | some colon_pos =>
    match stoi (substr_from target_str (colon_pos + 1)) with
    | Thrown.throw e => Thrown.throw e
    | Thrown.ok port => Thrown.ok (substr target_str 0 colon_pos, port)

/-! ## Platform library: `inet_pton(AF_INET, …)` and `htons` -/

/-- Local variables of glibc `inet_pton4`: `saw_digit`, `octets`, the bytes of
`tmp` already completed (those before `tp`) and the byte `*tp` being built. -/
structure Pton4 where
  saw_digit : Bool
  octets : Nat
  done : List Nat
  cur : Nat
  deriving DecidableEq, Repr

/-- One iteration of the scanning loop of `inet_pton4`; `none` is `return 0`. -/
def inet_pton4_step (st : Pton4) (ch : Char) : Option Pton4 :=
  if isdigit ch then
    let new := st.cur * 10 + digit_value ch
    if st.saw_digit && st.cur == 0 then none
    else if new > 255 then none
    else if !st.saw_digit then
      if st.octets + 1 > 4 then none
      else some { saw_digit := true, octets := st.octets + 1, done := st.done, cur := new }
    else some { st with cur := new }
  else if ch = '.' && st.saw_digit then
    if st.octets = 4 then none
    else some { saw_digit := false, octets := st.octets, done := st.done ++ [st.cur], cur := 0 }
  else none

/-- The `while (src < end)` loop of `inet_pton4`. -/
def inet_pton4_loop : Pton4 → Str → Option Pton4
  | st, [] => some st
  | st, ch :: rest =>
    match inet_pton4_step st ch with
    | none => none
    | some st1 => inet_pton4_loop st1 rest

/-- Platform library `inet_pton4` (dotted-decimal text to four bytes), following
glibc: four decimal fields of value at most 255 separated by single dots, no
leading zero in a field, nothing else in the string. -/
def inet_pton4 (src : Str) : Option (List Nat) :=
  match inet_pton4_loop { saw_digit := false, octets := 0, done := [], cur := 0 } src with
  | none => none
  | some st => if st.octets < 4 then none else some (st.done ++ [st.cur])

/-- Library `inet_pton(AF_INET, src, dst)`: the return value (1 converted, 0 rejected)
and the four bytes left in `*dst`, which main zero-initialised. -/
def inet_pton (src : Str) : Int × List Nat :=
  match inet_pton4 src with
  | some bytes => (1, bytes)
  | none => (0, [0, 0, 0, 0])

/-- Implicit conversion `int → uint16_t` at the call `htons(port)`. -/
def to_uint16 (x : Int) : Nat := (x % 65536).toNat

/-- Library `htons`: the two bytes of the result as they lie in memory, which is network
byte order (most significant byte first) on every host. -/
def htons (hostshort : Nat) : List Nat := [hostshort / 256 % 256, hostshort % 256]

/-- Address family constant `AF_INET`. -/
def AF_INET : Nat := 2

/-- The fields of `struct sockaddr_in` that main fills in. -/
structure sockaddr_in where
  sin_family : Nat
  sin_port : List Nat
  sin_addr : List Nat
  deriving DecidableEq, Repr

/-! ## Environment and observable behaviour of `main` -/

/-- One value returned by `getopt_long` before it returns -1: one of the three
options with its `optarg`, or anything else (`'?'`: unknown option or missing
argument), which takes the `default:` branch. -/
inductive Opt where
  | t (optarg : Str)
  | p (optarg : Str)
  | f (optarg : Str)
  | unrecognised
  deriving DecidableEq, Repr

/-- What a binary `std::ifstream` on a file name gives when main reads it to the
end (lines 63–65): all bytes of the file; nothing because the open failed (the
stream buffer is not open and the iterator is at once at its end); or a failed
read on a stream that did open, as for a directory, where the stream buffer
throws `std::ios_base::failure` out of the iterator. -/
inductive FileRead where
  | contents (bytes : Str)
  | cannot_open
  | read_failure
  deriving DecidableEq, Repr

/-- What the environment answers during one run. `fs name` is the outcome of
opening and reading the file `name`; `socket_ret` and `connect_ret` are the
return values of `socket` and `connect`. The return values of `send` and `close`
are discarded by main, so they are not part of the environment. Exhaustion of
memory is not modelled. -/
structure Env where
  fs : Str → FileRead
  socket_ret : Int
  connect_ret : Int

/-- Calls and outputs performed by main, in program order. `print_usage` is the
call `print_usage(argv[0])`, which writes the usage text to `std::cerr`;
`cerr_error e` is the line `Error: ` followed by `e.what()` written by the
handler; `perror s` is the call `perror(s)`; the others are the calls of the same
name with the arguments main passes. -/
inductive Event where
  | print_usage (prog_name : Str)
  | parse_target (target : Str)
  | ifstream_open (file_name : Str)
  | socket (ret : Int)
  | perror (s : String)
  | inet_pton (host : Str)
  | connect (sock : Int) (addr : sockaddr_in)
  | send (sock : Int) (buf : Str) (len : Nat)
  | close (sock : Int)
  | cerr_error (e : Exn)
  deriving DecidableEq, Repr

/-- A finished run: what main did and the value it returned. -/
structure Run where
  events : List Event
  status : Int
  deriving DecidableEq, Repr

/-- The three locals `target`, `payload`, `file_name` (`none` is `nullptr`). -/
structure Args where
  target : Option Str
  payload : Option Str
  file_name : Option Str
  deriving DecidableEq, Repr

/-- The initial values of the three locals (lines 29–31): all null. -/
def no_args : Args := { target := none, payload := none, file_name := none }

/-- The option loop of main (lines 40–48); `none` when the `default:` branch
returned. -/
def getopt_loop : List Opt → Args → Option Args
  | [], a => some a
  | Opt.t optarg :: rest, a => getopt_loop rest { a with target := some optarg }
  | Opt.p optarg :: rest, a => getopt_loop rest { a with payload := some optarg }
  | Opt.f optarg :: rest, a => getopt_loop rest { a with file_name := some optarg }
  | Opt.unrecognised :: _, _ => none

/-- Payload acquisition (lines 58–66): the string `data`, or the exception
thrown while reading the file, and the file opened for it. With both pointers
null main has already returned at line 52, so the last case is never reached
from main. -/
def load_payload (env : Env) (payload file_name : Option Str) : Thrown Str × List Event :=
  match payload with
  | some p => (Thrown.ok p, [])
  | none =>
    match file_name with
    | some name =>
      (match env.fs name with
        | FileRead.contents bytes => Thrown.ok bytes
        | FileRead.cannot_open => Thrown.ok []
        | FileRead.read_failure => Thrown.throw Exn.ios_failure,
       [Event.ifstream_open name])
    | none => (Thrown.ok [], [])

/-- Socket part of the `try` block (lines 68–91). -/
def send_payload (env : Env) (host : Str) (port : Int) (data : Str) : Run :=
  let sock := env.socket_ret
  if sock < 0 then
    { events := [Event.socket sock, Event.perror "socket"], status := 1 }
  else
    let sin_port := htons (to_uint16 port)
    let conv := inet_pton host
    if conv.1 ≤ 0 then
      { events := [Event.socket sock, Event.inet_pton host, Event.close sock], status := 1 }
    else
      let server_addr : sockaddr_in :=
        { sin_family := AF_INET, sin_port := sin_port, sin_addr := conv.2 }
      if env.connect_ret = 0 then
        { events := [Event.socket sock, Event.inet_pton host, Event.connect sock server_addr,
                     Event.send sock data data.length, Event.close sock],
          status := 0 }
      else
        { events := [Event.socket sock, Event.inet_pton host, Event.connect sock server_addr,
                     Event.close sock],
          status := 0 }

/-- The `try`/`catch` statement of main (lines 55–96): an exception thrown by
`parse_target` or by the payload read ends in the handler, which writes the
error line and returns 1. -/
def try_block (env : Env) (target : Str) (payload file_name : Option Str) : Run :=
  match parse_target target with
  | Thrown.throw e =>
    { events := [Event.parse_target target, Event.cerr_error e], status := 1 }
  | Thrown.ok (host, port) =>
    let loaded := load_payload env payload file_name
    match loaded.1 with
    | Thrown.throw e =>
      { events := Event.parse_target target :: (loaded.2 ++ [Event.cerr_error e]),
        status := 1 }
    | Thrown.ok data =>
      let rest := send_payload env host port data
      { events := Event.parse_target target :: (loaded.2 ++ rest.events),
        status := rest.status }

/-- Source `main` (lines 28–97). -/
def main (env : Env) (prog_name : Str) (opts : List Opt) : Run :=
  match getopt_loop opts no_args with
  | none => { events := [Event.print_usage prog_name], status := 1 }
  | some a =>
    match a.target with
    | none => { events := [Event.print_usage prog_name], status := 1 }
    | some target =>
      if a.payload.isNone && a.file_name.isNone then
        { events := [Event.print_usage prog_name], status := 1 }
      else try_block env target a.payload a.file_name

/-! ## Reference notions used in the statements -/

/-- Numeric value of a string of decimal digits, most significant digit first. -/
def decimal_value (d : Str) : Nat := Nat.ofDigits 10 (d.reverse.map digit_value)

/-- The claim's "numeric" port text: an optional sign followed by decimal digits
only, at least one. -/
def is_signed_decimal (s : Str) : Bool :=
  !(read_sign s).2.isEmpty && (read_sign s).2.all isdigit

/-- The digits `std::stoi` converts in `s`: the longest run of digits after the
leading white space and the optional sign. -/
def leading_digits (s : Str) : Str := (read_sign (s.dropWhile isspace)).2.takeWhile isdigit

/-- The signed value of `leading_digits s`. -/
def leading_value (s : Str) : Int :=
  if (read_sign (s.dropWhile isspace)).1 then -(decimal_value (leading_digits s) : Int)
  else (decimal_value (leading_digits s) : Int)

/-- Reference payload of section 4.3: the literal string when one was given,
otherwise the whole content of the named file, empty when it cannot be opened;
`none` when the file opened but could not be read, in which case there is no
payload. -/
def payload_spec (fs : Str → FileRead) (payload file_name : Option Str) : Option Str :=
  match payload with
  | some literal => some literal
  | none =>
    match file_name with
    | some name =>
      match fs name with
      | FileRead.contents bytes => some bytes
      | FileRead.cannot_open => some []
      | FileRead.read_failure => none
    | none => some []

/-- Reference list of file opens of a run: the named file, and only when no
literal payload was given. -/
def open_calls (payload file_name : Option Str) : List Event :=
  match payload, file_name with
  | none, some name => [Event.ifstream_open name]
  | _, _ => []

/-- Event is a `socket` call. -/
def is_socket_call : Event → Bool
  | Event.socket _ => true
  | _ => false

/-- Event is a `close` call. -/
def is_close_call : Event → Bool
  | Event.close _ => true
  | _ => false

/-- An environment whose files hold the three bytes `a`, NUL, `b`. -/
def env_file : Env :=
  { fs := fun _ => FileRead.contents ['a', Char.ofNat 0, 'b'], socket_ret := 3,
    connect_ret := 0 }

/-- An environment with a listening peer: no files, `socket` returns descriptor 3,
`connect` returns 0. -/
def env_listening : Env :=
  { fs := fun _ => FileRead.cannot_open, socket_ret := 3, connect_ret := 0 }

/-- An environment without a listener: `connect` returns -1. -/
def env_refused : Env :=
  { fs := fun _ => FileRead.cannot_open, socket_ret := 3, connect_ret := -1 }

/-- An environment in which every name is a directory: it opens and the read
fails. -/
def env_directory : Env :=
  { fs := fun _ => FileRead.read_failure, socket_ret := 3, connect_ret := 0 }

/-! ## Lemmas on the string primitives -/

theorem find_none_of_not_mem (s : Str) (ch : Char) (h : ch ∉ s) : find s ch = none := by
  induction s with
  | nil => rfl
  | cons c cs ih =>
    simp only [List.mem_cons, not_or] at h
    have hne : ¬ c = ch := fun e => h.1 e.symm
    simp [find, hne, ih h.2]

theorem find_append_of_not_mem (h d : Str) (ch : Char) (hh : ch ∉ h) :
    find (h ++ ch :: d) ch = some h.length := by
  induction h with
  | nil => simp [find]
  | cons c cs ih =>
    simp only [List.mem_cons, not_or] at hh
    have hne : ¬ c = ch := fun e => hh.1 e.symm
    simp [find, hne, ih hh.2]

theorem substr_host (h d : Str) (ch : Char) : substr (h ++ ch :: d) 0 h.length = h := by
  simp [substr]

theorem substr_from_port (h d : Str) (ch : Char) :
    substr_from (h ++ ch :: d) (h.length + 1) = d := by
  induction h with
  | nil => simp [substr_from]
  | cons c cs ih => simp [substr_from]

/-- Splitting at the first colon: `parse_target` on `h ++ ":" ++ rest` is `stoi rest`
paired with `h`. -/
theorem parse_target_split (h rest : Str) (hh : ':' ∉ h) :
    parse_target (h ++ ':' :: rest) =
      match stoi rest with
      | Thrown.throw e => Thrown.throw e
      | Thrown.ok port => Thrown.ok (h, port) := by
  simp only [parse_target, find_append_of_not_mem h rest ':' hh, substr_from_port, substr_host]

theorem accumulate_snoc (d : Str) (c : Char) :
    accumulate (d ++ [c]) = accumulate d * 10 + digit_value c := by
  simp [accumulate, List.foldl_append]

theorem accumulate_eq_decimal_value (d : Str) : accumulate d = decimal_value d := by
  induction d using List.reverseRecOn with
  | nil => simp [accumulate, decimal_value]
  | append_singleton d c ih =>
    rw [accumulate_snoc, ih]
    simp [decimal_value, Nat.ofDigits_cons]
    ring

theorem isdigit_not_isspace (c : Char) (h : isdigit c = true) : isspace c = false := by
  simp only [isdigit, Bool.and_eq_true, decide_eq_true_eq] at h
  simp only [isspace, Bool.or_eq_false_iff, Bool.and_eq_false_iff, decide_eq_false_iff_not]
  omega

theorem isdigit_ne_sign (c : Char) (h : isdigit c = true) : c ≠ '-' ∧ c ≠ '+' := by
  simp only [isdigit, Bool.and_eq_true, decide_eq_true_eq] at h
  constructor <;> (rintro rfl; revert h; decide)

theorem takeWhile_all (d : Str) (hd : ∀ c ∈ d, isdigit c = true) : d.takeWhile isdigit = d := by
  induction d with
  | nil => rfl
  | cons c cs ih =>
    have hc := hd c (List.mem_cons_self _ _)
    simp [List.takeWhile, hc, ih (fun x hx => hd x (List.mem_cons_of_mem _ hx))]

theorem stoi_digits (d : Str) (hne : d ≠ []) (hd : ∀ c ∈ d, isdigit c = true)
    (hfit : decimal_value d ≤ 2147483647) : stoi d = Thrown.ok (decimal_value d : Int) := by
  obtain ⟨c, cs, rfl⟩ := List.exists_cons_of_ne_nil hne
  have hc := hd c (List.mem_cons_self _ _)
  have hsp := isdigit_not_isspace c hc
  have hsg := isdigit_ne_sign c hc
  have h1 : (c :: cs).dropWhile isspace = c :: cs := by simp [List.dropWhile, hsp]
  have h2 : read_sign (c :: cs) = (false, c :: cs) := by simp [read_sign, hsg.1, hsg.2]
  have h3 := takeWhile_all (c :: cs) hd
  have h4 : ¬ ((decimal_value (c :: cs) : Int) < INT_MIN) := by
    simp only [INT_MIN]; omega
  have h5 : ¬ (INT_MAX < (decimal_value (c :: cs) : Int)) := by
    simp only [INT_MAX]; omega
  simp only [stoi, h1, h2, h3, accumulate_eq_decimal_value]
  simp [h4, h5]

/-! ## Theorems -/

/-- C1: for every string `h ++ ":" ++ d` where `h` has no colon and `d` is a
non-empty run of decimal digits whose value fits a 32-bit signed int,
`parse_target` returns exactly the pair (`h`, value of `d`). -/
theorem parse_target_valid (h d : Str) (hh : ':' ∉ h) (hne : d ≠ [])
    (hd : ∀ c ∈ d, isdigit c = true) (hfit : decimal_value d ≤ 2147483647) :
    parse_target (h ++ ':' :: d) = Thrown.ok (h, (decimal_value d : Int)) := by
  rw [parse_target_split h d hh, stoi_digits d hne hd hfit]

theorem parse_target_valid_witness :
    parse_target ("127.0.0.1".toList ++ ':' :: "8080".toList)
      = Thrown.ok ("127.0.0.1".toList, ((8080 : Nat) : Int)) :=
  parse_target_valid "127.0.0.1".toList "8080".toList (by decide) (by decide) (by decide)
    (by decide)

/-- With `--target` and one of `--payload`/`--file` given and every option
recognised, main runs its `try` block. -/
theorem main_accepted (env : Env) (prog : Str) (opts : List Opt) (a : Args) (t : Str)
    (hloop : getopt_loop opts no_args = some a) (ht : a.target = some t)
    (hsrc : a.payload.isSome ∨ a.file_name.isSome) :
    main env prog opts = try_block env t a.payload a.file_name := by
  have hg : (a.payload.isNone && a.file_name.isNone) = false := by
    rcases hsrc with h | h
    · cases hp : a.payload <;> simp_all
    · cases hf : a.file_name <;> simp_all
  simp only [main, hloop, ht, hg]
  simp

theorem stoi_bad (s : Str)
    (hbad : leading_digits s = [] ∨ leading_value s < -2147483648 ∨ 2147483647 < leading_value s) :
    stoi s = Thrown.throw
      (if leading_digits s = [] then Exn.invalid_argument else Exn.out_of_range) := by
  by_cases he : leading_digits s = []
  · have he2 := he
    simp only [leading_digits] at he2
    simp [stoi, he, he2]
  · have hr : leading_value s < -2147483648 ∨ 2147483647 < leading_value s := by
      rcases hbad with h | h
      · exact absurd h he
      · exact h
    have he2 := he
    simp only [leading_digits] at he2
    simp only [leading_value, leading_digits, ← accumulate_eq_decimal_value] at hr
    simp only [stoi, List.isEmpty_iff, he2, if_false, he, INT_MIN, INT_MAX]
    simp [hr]

/-- C2: a target without a colon makes `parse_target` throw the format error,
and a run whose arguments are otherwise accepted prints the error line and
returns 1 having opened no file and created no socket. -/
theorem no_colon_format_error (target : Str) (h : ':' ∉ target) :
    parse_target target
        = Thrown.throw (Exn.runtime_error "Invalid target format. Use host:port") ∧
    ∀ (env : Env) (prog : Str) (opts : List Opt) (a : Args),
      getopt_loop opts no_args = some a → a.target = some target →
      (a.payload.isSome ∨ a.file_name.isSome) →
      main env prog opts =
        { events := [Event.parse_target target,
                     Event.cerr_error (Exn.runtime_error "Invalid target format. Use host:port")],
          status := 1 } := by
  have hp : parse_target target
      = Thrown.throw (Exn.runtime_error "Invalid target format. Use host:port") := by
    simp [parse_target, find_none_of_not_mem target ':' h]
  refine ⟨hp, ?_⟩
  intro env prog opts a hloop ht hsrc
  rw [main_accepted env prog opts a target hloop ht hsrc]
  simp [try_block, hp]

theorem no_colon_format_error_witness :
    parse_target "localhost".toList
        = Thrown.throw (Exn.runtime_error "Invalid target format. Use host:port") ∧
    main env_listening "prog".toList [Opt.t "localhost".toList, Opt.f "in.bin".toList] =
        { events := [Event.parse_target "localhost".toList,
                     Event.cerr_error (Exn.runtime_error "Invalid target format. Use host:port")],
          status := 1 } :=
  ⟨(no_colon_format_error "localhost".toList (by decide)).1,
   (no_colon_format_error "localhost".toList (by decide)).2 env_listening "prog".toList
     [Opt.t "localhost".toList, Opt.f "in.bin".toList]
     { target := some "localhost".toList, payload := none, file_name := some "in.bin".toList }
     (by decide) rfl (by decide)⟩

/-- C3, as stated, fails: the port text "80abc" is not an optionally signed run of
digits, yet `parse_target` returns port 80 and the run goes on to connect, send
and return 0. -/
theorem trailing_text_port_accepted :
    is_signed_decimal "80abc".toList = false ∧
    parse_target "1.2.3.4:80abc".toList = Thrown.ok ("1.2.3.4".toList, 80) ∧
    main env_listening "prog".toList [Opt.t "1.2.3.4:80abc".toList, Opt.p "abc".toList] =
      { events := [Event.parse_target "1.2.3.4:80abc".toList, Event.socket 3,
                   Event.inet_pton "1.2.3.4".toList,
                   Event.connect 3 { sin_family := 2, sin_port := [0, 80], sin_addr := [1, 2, 3, 4] },
                   Event.send 3 "abc".toList 3, Event.close 3],
        status := 0 } := by
  decide

/-- C3 (amended): when the text after the first colon, once leading white space
and one optional sign are skipped, does not start with a digit, `parse_target`
throws `invalid_argument`; when its leading digits denote a signed value outside
the `int` range it throws `out_of_range`; an accepted run then prints the error
line and returns 1 without creating a socket. -/
theorem bad_port_conversion_error (h rest : Str) (hh : ':' ∉ h)
    (hbad : leading_digits rest = [] ∨ leading_value rest < -2147483648
      ∨ 2147483647 < leading_value rest) :
    parse_target (h ++ ':' :: rest) = Thrown.throw
        (if leading_digits rest = [] then Exn.invalid_argument else Exn.out_of_range) ∧
    ∀ (env : Env) (prog : Str) (opts : List Opt) (a : Args),
      getopt_loop opts no_args = some a → a.target = some (h ++ ':' :: rest) →
      (a.payload.isSome ∨ a.file_name.isSome) →
      main env prog opts =
        { events := [Event.parse_target (h ++ ':' :: rest),
                     Event.cerr_error
                       (if leading_digits rest = [] then Exn.invalid_argument
                        else Exn.out_of_range)],
          status := 1 } := by
  have hp : parse_target (h ++ ':' :: rest) = Thrown.throw
      (if leading_digits rest = [] then Exn.invalid_argument else Exn.out_of_range) := by
    rw [parse_target_split h rest hh, stoi_bad rest hbad]
  refine ⟨hp, ?_⟩
  intro env prog opts a hloop ht hsrc
  rw [main_accepted env prog opts a _ hloop ht hsrc]
  simp only [try_block, hp]

theorem bad_port_conversion_error_witness :
    parse_target ("1.2.3.4".toList ++ ':' :: "2147483648".toList)
      = Thrown.throw Exn.out_of_range ∧
    main env_listening "prog".toList [Opt.t "1.2.3.4:2147483648".toList, Opt.p "abc".toList] =
      { events := [Event.parse_target "1.2.3.4:2147483648".toList,
                   Event.cerr_error Exn.out_of_range],
        status := 1 } :=
  ⟨(bad_port_conversion_error "1.2.3.4".toList "2147483648".toList (by decide)
      (Or.inr (Or.inr (by decide)))).1,
   (bad_port_conversion_error "1.2.3.4".toList "2147483648".toList (by decide)
      (Or.inr (Or.inr (by decide)))).2 env_listening "prog".toList
      [Opt.t "1.2.3.4:2147483648".toList, Opt.p "abc".toList]
      { target := some "1.2.3.4:2147483648".toList, payload := some "abc".toList,
        file_name := none }
      (by decide) rfl (by decide)⟩

/-! ## Lemmas on the option loop and the shape of a run -/

theorem getopt_loop_recognised (opts : List Opt) (hrec : ∀ o ∈ opts, o ≠ Opt.unrecognised) :
    ∀ a0 : Args, ∃ a, getopt_loop opts a0 = some a ∧
      (a.target = none ↔ a0.target = none ∧ ∀ s, Opt.t s ∉ opts) ∧
      (a.payload = none ↔ a0.payload = none ∧ ∀ s, Opt.p s ∉ opts) ∧
      (a.file_name = none ↔ a0.file_name = none ∧ ∀ s, Opt.f s ∉ opts) := by
  induction opts with
  | nil => intro a0; exact ⟨a0, rfl, by simp, by simp, by simp⟩
  | cons o rest ih =>
    intro a0
    have hrest : ∀ o ∈ rest, o ≠ Opt.unrecognised :=
      fun x hx => hrec x (List.mem_cons_of_mem _ hx)
    have ho := hrec o (List.mem_cons_self _ _)
    cases o with
    | t optarg =>
      obtain ⟨a, h1, h2, h3, h4⟩ := ih hrest { a0 with target := some optarg }
      refine ⟨a, by simpa [getopt_loop] using h1, ?_, ?_, ?_⟩
      · simp only [h2]
        constructor
        · intro h; simp at h
        · intro h; exact absurd (List.mem_cons_self _ _) (h.2 optarg)
      · simpa using h3
      · simpa using h4
    | p optarg =>
      obtain ⟨a, h1, h2, h3, h4⟩ := ih hrest { a0 with payload := some optarg }
      refine ⟨a, by simpa [getopt_loop] using h1, ?_, ?_, ?_⟩
      · simpa using h2
      · simp only [h3]
        constructor
        · intro h; simp at h
        · intro h; exact absurd (List.mem_cons_self _ _) (h.2 optarg)
      · simpa using h4
    | f optarg =>
      obtain ⟨a, h1, h2, h3, h4⟩ := ih hrest { a0 with file_name := some optarg }
      refine ⟨a, by simpa [getopt_loop] using h1, ?_, ?_, ?_⟩
      · simpa using h2
      · simpa using h3
      · simp only [h4]
        constructor
        · intro h; simp at h
        · intro h; exact absurd (List.mem_cons_self _ _) (h.2 optarg)
    | unrecognised => exact absurd rfl ho

theorem getopt_loop_target_absent (opts : List Opt) (hno : ∀ s, Opt.t s ∉ opts) :
    ∀ a0 a : Args, getopt_loop opts a0 = some a → a.target = a0.target := by
  induction opts with
  | nil => intro a0 a h; simp [getopt_loop] at h; rw [← h]
  | cons o rest ih =>
    intro a0 a h
    have hrest : ∀ s, Opt.t s ∉ rest := fun s hs => hno s (List.mem_cons_of_mem _ hs)
    cases o with
    | t optarg => exact absurd (List.mem_cons_self _ _) (hno optarg)
    | p optarg =>
      exact ih hrest { a0 with payload := some optarg } a (by simpa [getopt_loop] using h)
    | f optarg =>
      exact ih hrest { a0 with file_name := some optarg } a (by simpa [getopt_loop] using h)
    | unrecognised => simp [getopt_loop] at h

theorem load_payload_eq (env : Env) (payload file_name : Option Str) :
    load_payload env payload file_name =
      (match payload_spec env.fs payload file_name with
        | some data => Thrown.ok data
        | none => Thrown.throw Exn.ios_failure,
       open_calls payload file_name) := by
  cases payload with
  | some p => cases file_name <;> rfl
  | none =>
    cases file_name with
    | none => rfl
    | some name =>
      simp only [load_payload, payload_spec, open_calls]
      cases env.fs name <;> rfl

theorem open_calls_cases (payload file_name : Option Str) :
    open_calls payload file_name = [] ∨
    ∃ name, open_calls payload file_name = [Event.ifstream_open name] := by
  unfold open_calls
  cases payload <;> cases file_name <;> simp

theorem payload_spec_eq_none (fs : Str → FileRead) (payload file_name : Option Str) :
    payload_spec fs payload file_name = none ↔
      payload = none ∧ ∃ name, file_name = some name ∧ fs name = FileRead.read_failure := by
  cases payload with
  | some p => simp [payload_spec]
  | none =>
    cases file_name with
    | none => simp [payload_spec]
    | some name =>
      simp only [payload_spec]
      cases h : fs name <;> simp [h]

/-- The four ways through the socket part of main. -/
theorem send_payload_cases (env : Env) (host : Str) (port : Int) (data : Str) :
    (env.socket_ret < 0 ∧ send_payload env host port data =
      { events := [Event.socket env.socket_ret, Event.perror "socket"], status := 1 }) ∨
    (0 ≤ env.socket_ret ∧ (inet_pton host).1 ≤ 0 ∧ send_payload env host port data =
      { events := [Event.socket env.socket_ret, Event.inet_pton host,
                   Event.close env.socket_ret], status := 1 }) ∨
    (0 ≤ env.socket_ret ∧ 0 < (inet_pton host).1 ∧ env.connect_ret = 0 ∧
      send_payload env host port data =
      { events := [Event.socket env.socket_ret, Event.inet_pton host,
                   Event.connect env.socket_ret
                     { sin_family := AF_INET, sin_port := htons (to_uint16 port),
                       sin_addr := (inet_pton host).2 },
                   Event.send env.socket_ret data data.length,
                   Event.close env.socket_ret], status := 0 }) ∨
    (0 ≤ env.socket_ret ∧ 0 < (inet_pton host).1 ∧ env.connect_ret ≠ 0 ∧
      send_payload env host port data =
      { events := [Event.socket env.socket_ret, Event.inet_pton host,
                   Event.connect env.socket_ret
                     { sin_family := AF_INET, sin_port := htons (to_uint16 port),
                       sin_addr := (inet_pton host).2 },
                   Event.close env.socket_ret], status := 0 }) := by
  unfold send_payload
  by_cases h1 : env.socket_ret < 0
  · left; simp [h1]
  · by_cases h2 : (inet_pton host).1 ≤ 0
    · right; left; simp [h1, h2, not_lt.mp h1]
    · by_cases h3 : env.connect_ret = 0
      · right; right; left; simp [h1, h2, h3, not_lt.mp h1, not_le.mp h2]
      · right; right; right; simp [h1, h2, h3, not_lt.mp h1, not_le.mp h2]

/-- A run of the `try` block that gets past `parse_target` and the payload
read. -/
theorem try_block_ok (env : Env) (t host : Str) (port : Int) (payload file_name : Option Str)
    (data : Str) (hp : parse_target t = Thrown.ok (host, port))
    (hload : payload_spec env.fs payload file_name = some data) :
    try_block env t payload file_name =
      { events := Event.parse_target t :: (open_calls payload file_name ++
          (send_payload env host port data).events),
        status := (send_payload env host port data).status } := by
  simp only [try_block, hp, load_payload_eq, hload]

/-- A run of the `try` block in which the payload read throws. -/
theorem try_block_read_failure (env : Env) (t host : Str) (port : Int)
    (payload file_name : Option Str) (hp : parse_target t = Thrown.ok (host, port))
    (hload : payload_spec env.fs payload file_name = none) :
    try_block env t payload file_name =
      { events := Event.parse_target t :: (open_calls payload file_name ++
          [Event.cerr_error Exn.ios_failure]),
        status := 1 } := by
  simp only [try_block, hp, load_payload_eq, hload]

theorem try_block_throw (env : Env) (t : Str) (e : Exn) (payload file_name : Option Str)
    (hp : parse_target t = Thrown.throw e) :
    try_block env t payload file_name =
      { events := [Event.parse_target t, Event.cerr_error e], status := 1 } := by
  simp only [try_block, hp]

theorem print_usage_not_mem_try_block (env : Env) (prog t : Str) (payload file_name : Option Str) :
    Event.print_usage prog ∉ (try_block env t payload file_name).events := by
  cases hp : parse_target t with
  | throw e => rw [try_block_throw env t e payload file_name hp]; simp
  | ok value =>
    obtain ⟨host, port⟩ := value
    cases hload : payload_spec env.fs payload file_name with
    | none =>
      rw [try_block_read_failure env t host port payload file_name hp hload]
      rcases open_calls_cases payload file_name with h | ⟨name, h⟩ <;> simp [h]
    | some data =>
      rw [try_block_ok env t host port payload file_name data hp hload]
      rcases open_calls_cases payload file_name with h | ⟨name, h⟩ <;>
        rcases send_payload_cases env host port data with hs | hs | hs | hs <;>
        simp [h, hs]

/-- C4: when every option is recognised, main prints the usage text and returns
1 without doing anything else exactly when `--target` is absent or both
`--payload` and `--file` are absent; without `--target` that is the outcome
whatever else the argument list holds. -/
theorem usage_iff_missing_args (env : Env) (prog : Str) (opts : List Opt) :
    ((∀ s, Opt.t s ∉ opts) →
      main env prog opts = { events := [Event.print_usage prog], status := 1 }) ∧
    ((∀ o ∈ opts, o ≠ Opt.unrecognised) →
      (main env prog opts = { events := [Event.print_usage prog], status := 1 } ↔
        ((∀ s, Opt.t s ∉ opts) ∨ ((∀ s, Opt.p s ∉ opts) ∧ (∀ s, Opt.f s ∉ opts)))) ∧
      (Event.print_usage prog ∈ (main env prog opts).events ↔
        ((∀ s, Opt.t s ∉ opts) ∨ ((∀ s, Opt.p s ∉ opts) ∧ (∀ s, Opt.f s ∉ opts))))) := by
  constructor
  · intro hno
    unfold main
    cases hloop : getopt_loop opts no_args with
    | none => rfl
    | some a =>
      have ht : a.target = none := by
        rw [getopt_loop_target_absent opts hno no_args a hloop]; rfl
      simp [ht]
  · intro hrec
    obtain ⟨a, hloop, h2, h3, h4⟩ := getopt_loop_recognised opts hrec no_args
    simp only [no_args, true_and] at h2 h3 h4
    by_cases hc : (∀ s, Opt.t s ∉ opts) ∨ ((∀ s, Opt.p s ∉ opts) ∧ (∀ s, Opt.f s ∉ opts))
    · have hm : main env prog opts = { events := [Event.print_usage prog], status := 1 } := by
        unfold main
        rw [hloop]
        rcases hc with hc | ⟨hp, hf⟩
        · simp [h2.mpr hc]
        · cases ht : a.target with
          | none => simp [ht]
          | some t => simp [ht, h3.mpr hp, h4.mpr hf]
      simp only [hm, hc, iff_true, true_and]
      simp
    · have hc2 := hc
      simp only [not_or, not_and_or] at hc
      obtain ⟨hct, hcs⟩ := hc
      have ht : a.target ≠ none := fun e => hct (h2.mp e)
      obtain ⟨t, ht⟩ := Option.ne_none_iff_exists'.mp ht
      have hsrc : a.payload.isSome ∨ a.file_name.isSome := by
        rcases hcs with hp | hf
        · left
          cases hpp : a.payload with
          | none => exact absurd (h3.mp hpp) hp
          | some x => rfl
        · right
          cases hff : a.file_name with
          | none => exact absurd (h4.mp hff) hf
          | some x => rfl
      have hm := main_accepted env prog opts a t hloop ht hsrc
      have hnot := print_usage_not_mem_try_block env prog t a.payload a.file_name
      rw [hm]
      simp only [hc2, iff_false]
      refine ⟨?_, hnot⟩
      intro he
      apply hnot
      rw [he]
      simp

theorem usage_iff_missing_args_witness :
    main env_listening "prog".toList [Opt.p "abc".toList, Opt.f "in.bin".toList]
      = { events := [Event.print_usage "prog".toList], status := 1 } ∧
    main env_listening "prog".toList [Opt.t "1.2.3.4:80".toList]
      = { events := [Event.print_usage "prog".toList], status := 1 } :=
  ⟨(usage_iff_missing_args env_listening "prog".toList
      [Opt.p "abc".toList, Opt.f "in.bin".toList]).1 (by simp),
   (((usage_iff_missing_args env_listening "prog".toList
      [Opt.t "1.2.3.4:80".toList]).2 (by decide)).1).mpr (Or.inr ⟨by simp, by simp⟩)⟩

/-- A run that gets past the argument check, `parse_target` and the payload
read. -/
theorem main_parsed (env : Env) (prog : Str) (opts : List Opt) (a : Args) (t host : Str)
    (port : Int) (data : Str)
    (hloop : getopt_loop opts no_args = some a) (ht : a.target = some t)
    (hsrc : a.payload.isSome ∨ a.file_name.isSome)
    (hp : parse_target t = Thrown.ok (host, port))
    (hload : payload_spec env.fs a.payload a.file_name = some data) :
    main env prog opts =
      { events := Event.parse_target t :: (open_calls a.payload a.file_name ++
          (send_payload env host port data).events),
        status := (send_payload env host port data).status } := by
  rw [main_accepted env prog opts a t hloop ht hsrc,
    try_block_ok env t host port a.payload a.file_name data hp hload]

/-- A run in which the payload read throws. -/
theorem main_read_failure (env : Env) (prog : Str) (opts : List Opt) (a : Args) (t host : Str)
    (port : Int)
    (hloop : getopt_loop opts no_args = some a) (ht : a.target = some t)
    (hsrc : a.payload.isSome ∨ a.file_name.isSome)
    (hp : parse_target t = Thrown.ok (host, port))
    (hload : payload_spec env.fs a.payload a.file_name = none) :
    main env prog opts =
      { events := Event.parse_target t :: (open_calls a.payload a.file_name ++
          [Event.cerr_error Exn.ios_failure]),
        status := 1 } := by
  rw [main_accepted env prog opts a t hloop ht hsrc,
    try_block_read_failure env t host port a.payload a.file_name hp hload]

/-- C5, as stated, fails: with `--file` naming a directory the argument list is
accepted and the file opens, yet main computes no payload: the read throws, the
handler prints the error line and main returns 1 without creating a socket. -/
theorem directory_payload_raises_error :
    (load_payload env_directory none (some "dir".toList)).1 = Thrown.throw Exn.ios_failure ∧
    (∀ data : Str,
      (load_payload env_directory none (some "dir".toList)).1 ≠ Thrown.ok data) ∧
    main env_directory "prog".toList [Opt.t "1.2.3.4:80".toList, Opt.f "dir".toList] =
      { events := [Event.parse_target "1.2.3.4:80".toList, Event.ifstream_open "dir".toList,
                   Event.cerr_error Exn.ios_failure],
        status := 1 } := by
  refine ⟨by decide, ?_, by decide⟩
  intro data h
  have h2 : (load_payload env_directory none (some "dir".toList)).1
      = Thrown.throw Exn.ios_failure := by decide
  rw [h2] at h
  cases h

/-- C5 (amended): the payload main computes is the literal string when
`--payload` was given (no file is opened then, even if `--file` was given too);
otherwise all bytes of the named file when it opens and is read to its end, and
the empty sequence, with no error, when it cannot be opened; the run then
continues into the socket part with exactly that payload. When the file opens
but the read fails there is no payload: the handler prints the error line and
main returns 1 without creating a socket. -/
theorem payload_reference_or_read_failure (env : Env) (payload file_name : Option Str) :
    load_payload env payload file_name =
      (match payload_spec env.fs payload file_name with
        | some data => Thrown.ok data
        | none => Thrown.throw Exn.ios_failure,
       open_calls payload file_name) ∧
    (∀ literal, payload = some literal →
      load_payload env payload file_name = (Thrown.ok literal, [])) ∧
    (∀ name bytes, payload = none → file_name = some name →
      env.fs name = FileRead.contents bytes →
      load_payload env payload file_name = (Thrown.ok bytes, [Event.ifstream_open name])) ∧
    (∀ name, payload = none → file_name = some name → env.fs name = FileRead.cannot_open →
      load_payload env payload file_name = (Thrown.ok [], [Event.ifstream_open name])) ∧
    (∀ name, payload = none → file_name = some name → env.fs name = FileRead.read_failure →
      load_payload env payload file_name
        = (Thrown.throw Exn.ios_failure, [Event.ifstream_open name])) ∧
    (∀ (prog : Str) (opts : List Opt) (a : Args) (t host : Str) (port : Int) (data : Str),
      getopt_loop opts no_args = some a → a.target = some t →
      a.payload = payload → a.file_name = file_name →
      (payload.isSome ∨ file_name.isSome) →
      parse_target t = Thrown.ok (host, port) →
      payload_spec env.fs payload file_name = some data →
      main env prog opts =
        { events := Event.parse_target t :: (open_calls payload file_name ++
            (send_payload env host port data).events),
          status := (send_payload env host port data).status }) ∧
    (∀ (prog : Str) (opts : List Opt) (a : Args) (t host name : Str) (port : Int),
      getopt_loop opts no_args = some a → a.target = some t →
      a.payload = payload → a.file_name = file_name →
      payload = none → file_name = some name →
      parse_target t = Thrown.ok (host, port) →
      env.fs name = FileRead.read_failure →
      main env prog opts =
        { events := [Event.parse_target t, Event.ifstream_open name,
                     Event.cerr_error Exn.ios_failure],
          status := 1 }) := by
  refine ⟨load_payload_eq env payload file_name, ?_, ?_, ?_, ?_, ?_, ?_⟩
  · intro literal hl
    subst hl
    rfl
  · intro name bytes hp hf hfs
    subst hp; subst hf
    simp [load_payload, hfs]
  · intro name hp hf hfs
    subst hp; subst hf
    simp [load_payload, hfs]
  · intro name hp hf hfs
    subst hp; subst hf
    simp [load_payload, hfs]
  · intro prog opts a t host port data hloop ht hpay hfile hsrc hp hload
    subst hpay; subst hfile
    exact main_parsed env prog opts a t host port data hloop ht hsrc hp hload
  · intro prog opts a t host name port hloop ht hpay hfile hpn hfn hp hfs
    subst hpay; subst hfile
    have hload : payload_spec env.fs a.payload a.file_name = none :=
      (payload_spec_eq_none env.fs a.payload a.file_name).mpr ⟨hpn, name, hfn, hfs⟩
    have hsrc : a.payload.isSome ∨ a.file_name.isSome := Or.inr (by rw [hfn]; rfl)
    rw [main_read_failure env prog opts a t host port hloop ht hsrc hp hload]
    simp [open_calls, hpn, hfn]

theorem payload_reference_or_read_failure_witness :
    load_payload env_listening (some "abc".toList) (some "in.bin".toList)
      = (Thrown.ok "abc".toList, []) ∧
    load_payload env_file none (some "in.bin".toList)
      = (Thrown.ok ['a', Char.ofNat 0, 'b'], [Event.ifstream_open "in.bin".toList]) ∧
    load_payload env_listening none (some "in.bin".toList)
      = (Thrown.ok [], [Event.ifstream_open "in.bin".toList]) ∧
    load_payload env_directory none (some "dir".toList)
      = (Thrown.throw Exn.ios_failure, [Event.ifstream_open "dir".toList]) ∧
    main env_file "prog".toList
        [Opt.t "1.2.3.4:80".toList, Opt.f "in.bin".toList, Opt.p "abc".toList] =
      { events := Event.parse_target "1.2.3.4:80".toList ::
          (open_calls (some "abc".toList) (some "in.bin".toList) ++
            (send_payload env_file "1.2.3.4".toList 80 "abc".toList).events),
        status := (send_payload env_file "1.2.3.4".toList 80 "abc".toList).status } ∧
    main env_directory "prog".toList [Opt.t "1.2.3.4:80".toList, Opt.f "dir".toList] =
      { events := [Event.parse_target "1.2.3.4:80".toList, Event.ifstream_open "dir".toList,
                   Event.cerr_error Exn.ios_failure],
        status := 1 } :=
  ⟨(payload_reference_or_read_failure env_listening (some "abc".toList)
      (some "in.bin".toList)).2.1 "abc".toList rfl,
   (payload_reference_or_read_failure env_file none (some "in.bin".toList)).2.2.1
      "in.bin".toList ['a', Char.ofNat 0, 'b'] rfl rfl rfl,
   (payload_reference_or_read_failure env_listening none (some "in.bin".toList)).2.2.2.1
      "in.bin".toList rfl rfl rfl,
   (payload_reference_or_read_failure env_directory none (some "dir".toList)).2.2.2.2.1
      "dir".toList rfl rfl rfl,
   (payload_reference_or_read_failure env_file (some "abc".toList)
      (some "in.bin".toList)).2.2.2.2.2.1
      "prog".toList [Opt.t "1.2.3.4:80".toList, Opt.f "in.bin".toList, Opt.p "abc".toList]
      { target := some "1.2.3.4:80".toList, payload := some "abc".toList,
        file_name := some "in.bin".toList }
      "1.2.3.4:80".toList "1.2.3.4".toList 80 "abc".toList (by decide) rfl rfl rfl (by decide)
      (by decide) rfl,
   (payload_reference_or_read_failure env_directory none (some "dir".toList)).2.2.2.2.2.2
      "prog".toList [Opt.t "1.2.3.4:80".toList, Opt.f "dir".toList]
      { target := some "1.2.3.4:80".toList, payload := none, file_name := some "dir".toList }
      "1.2.3.4:80".toList "1.2.3.4".toList "dir".toList 80 (by decide) rfl rfl rfl rfl rfl
      (by decide) rfl⟩

/-- C6: in a run whose arguments are accepted, whose target parses, whose payload
is obtained, whose socket and address conversion succeed and whose `connect`
returns 0, main makes exactly one `send` call, on the connected socket, with the
whole payload as buffer and its length as length, then closes and returns 0. -/
theorem connected_run_sends_payload (env : Env) (prog : Str) (opts : List Opt) (a : Args)
    (t host : Str) (port : Int) (data : Str)
    (hloop : getopt_loop opts no_args = some a) (ht : a.target = some t)
    (hsrc : a.payload.isSome ∨ a.file_name.isSome)
    (hp : parse_target t = Thrown.ok (host, port))
    (hload : payload_spec env.fs a.payload a.file_name = some data)
    (hsock : 0 ≤ env.socket_ret) (hconv : 0 < (inet_pton host).1)
    (hconn : env.connect_ret = 0) :
    main env prog opts =
      { events := Event.parse_target t :: (open_calls a.payload a.file_name ++
          [Event.socket env.socket_ret, Event.inet_pton host,
           Event.connect env.socket_ret
             { sin_family := AF_INET, sin_port := htons (to_uint16 port),
               sin_addr := (inet_pton host).2 },
           Event.send env.socket_ret data data.length,
           Event.close env.socket_ret]),
        status := 0 } := by
  rw [main_parsed env prog opts a t host port data hloop ht hsrc hp hload]
  rcases send_payload_cases env host port data
    with ⟨h1, _⟩ | ⟨_, h2, _⟩ | ⟨_, _, _, hs⟩ | ⟨_, _, h3, _⟩
  · omega
  · omega
  · rw [hs]
  · exact absurd hconn h3

theorem connected_run_sends_payload_witness :
    main env_listening "prog".toList [Opt.t "127.0.0.1:8080".toList, Opt.p "abc".toList] =
      { events := [Event.parse_target "127.0.0.1:8080".toList, Event.socket 3,
                   Event.inet_pton "127.0.0.1".toList,
                   Event.connect 3
                     { sin_family := 2, sin_port := [31, 144], sin_addr := [127, 0, 0, 1] },
                   Event.send 3 "abc".toList 3, Event.close 3],
        status := 0 } ∧
    main env_file "prog".toList [Opt.t "127.0.0.1:8080".toList, Opt.f "in.bin".toList] =
      { events := [Event.parse_target "127.0.0.1:8080".toList,
                   Event.ifstream_open "in.bin".toList, Event.socket 3,
                   Event.inet_pton "127.0.0.1".toList,
                   Event.connect 3
                     { sin_family := 2, sin_port := [31, 144], sin_addr := [127, 0, 0, 1] },
                   Event.send 3 ['a', Char.ofNat 0, 'b'] 3, Event.close 3],
        status := 0 } :=
  ⟨connected_run_sends_payload env_listening "prog".toList
    [Opt.t "127.0.0.1:8080".toList, Opt.p "abc".toList]
    { target := some "127.0.0.1:8080".toList, payload := some "abc".toList, file_name := none }
    "127.0.0.1:8080".toList "127.0.0.1".toList 8080 "abc".toList (by decide) rfl (by decide)
    (by decide) rfl (by decide) (by decide) rfl,
   connected_run_sends_payload env_file "prog".toList
    [Opt.t "127.0.0.1:8080".toList, Opt.f "in.bin".toList]
    { target := some "127.0.0.1:8080".toList, payload := none,
      file_name := some "in.bin".toList }
    "127.0.0.1:8080".toList "127.0.0.1".toList 8080 ['a', Char.ofNat 0, 'b'] (by decide) rfl
    (by decide) (by decide) rfl (by decide) (by decide) rfl⟩

theorem main_rejected (env : Env) (prog : Str) (opts : List Opt)
    (hrej : ∀ a, getopt_loop opts no_args = some a →
      a.target = none ∨ (a.payload = none ∧ a.file_name = none)) :
    main env prog opts = { events := [Event.print_usage prog], status := 1 } := by
  unfold main
  cases hloop : getopt_loop opts no_args with
  | none => rfl
  | some a =>
    rcases hrej a hloop with h | ⟨h1, h2⟩
    · simp [h]
    · cases ht : a.target with
      | none => simp [ht]
      | some t => simp [ht, h1, h2]

/-- Every run of main has one of four forms: usage, a caught exception from
`parse_target`, a caught exception from the payload read, or the socket part
behind the payload loading. -/
theorem main_shape (env : Env) (prog : Str) (opts : List Opt) :
    main env prog opts = { events := [Event.print_usage prog], status := 1 } ∨
    (∃ (a : Args) (t : Str) (e : Exn), getopt_loop opts no_args = some a ∧ a.target = some t ∧
      (a.payload.isSome ∨ a.file_name.isSome) ∧ parse_target t = Thrown.throw e ∧
      main env prog opts = { events := [Event.parse_target t, Event.cerr_error e], status := 1 }) ∨
    (∃ (a : Args) (t host : Str) (port : Int), getopt_loop opts no_args = some a ∧
      a.target = some t ∧ (a.payload.isSome ∨ a.file_name.isSome) ∧
      parse_target t = Thrown.ok (host, port) ∧
      payload_spec env.fs a.payload a.file_name = none ∧
      main env prog opts =
        { events := Event.parse_target t :: (open_calls a.payload a.file_name ++
            [Event.cerr_error Exn.ios_failure]),
          status := 1 }) ∨
    (∃ (a : Args) (t host : Str) (port : Int) (data : Str),
      getopt_loop opts no_args = some a ∧
      a.target = some t ∧ (a.payload.isSome ∨ a.file_name.isSome) ∧
      parse_target t = Thrown.ok (host, port) ∧
      payload_spec env.fs a.payload a.file_name = some data ∧
      main env prog opts =
        { events := Event.parse_target t :: (open_calls a.payload a.file_name ++
            (send_payload env host port data).events),
          status := (send_payload env host port data).status }) := by
  by_cases hacc : ∃ a t, getopt_loop opts no_args = some a ∧ a.target = some t ∧
      (a.payload.isSome ∨ a.file_name.isSome)
  · obtain ⟨a, t, hloop, ht, hsrc⟩ := hacc
    right
    cases hp : parse_target t with
    | throw e =>
      left
      refine ⟨a, t, e, hloop, ht, hsrc, hp, ?_⟩
      rw [main_accepted env prog opts a t hloop ht hsrc, try_block_throw env t e _ _ hp]
    | ok value =>
      obtain ⟨host, port⟩ := value
      right
      cases hload : payload_spec env.fs a.payload a.file_name with
      | none =>
        left
        exact ⟨a, t, host, port, hloop, ht, hsrc, hp, hload,
          main_read_failure env prog opts a t host port hloop ht hsrc hp hload⟩
      | some data =>
        right
        exact ⟨a, t, host, port, data, hloop, ht, hsrc, hp, hload,
          main_parsed env prog opts a t host port data hloop ht hsrc hp hload⟩
  · left
    apply main_rejected
    intro a hloop
    by_contra hcon
    simp only [not_or, not_and_or] at hcon
    obtain ⟨h1, h2⟩ := hcon
    obtain ⟨t, ht⟩ := Option.ne_none_iff_exists'.mp h1
    apply hacc
    refine ⟨a, t, hloop, ht, ?_⟩
    rcases h2 with h | h
    · left; exact Option.ne_none_iff_isSome.mp h
    · right; exact Option.ne_none_iff_isSome.mp h

theorem inet_pton4_loop_bad_char (host : Str)
    (hbad : ∃ c ∈ host, isdigit c = false ∧ c ≠ '.') :
    ∀ st : Pton4, inet_pton4_loop st host = none := by
  induction host with
  | nil => simp at hbad
  | cons ch rest ih =>
    intro st
    obtain ⟨c, hc, hnd, hdot⟩ := hbad
    rcases List.mem_cons.mp hc with rfl | hin
    · simp [inet_pton4_loop, inet_pton4_step, hnd, hdot]
    · cases hstep : inet_pton4_step st ch with
      | none => simp [inet_pton4_loop, hstep]
      | some st1 =>
        simp only [inet_pton4_loop, hstep]
        exact ih ⟨c, hin, hnd, hdot⟩ st1

theorem inet_pton_bad_char (host : Str) (hbad : ∃ c ∈ host, isdigit c = false ∧ c ≠ '.') :
    (inet_pton host).1 = 0 := by
  simp [inet_pton, inet_pton4, inet_pton4_loop_bad_char host hbad]

/-- C8: when the run reaches address conversion and `inet_pton` rejects the host,
main closes the socket and returns 1, with no `connect`, no `send` and no output;
the empty host and every host containing a character other than a digit or a dot
(every name) are rejected, and nothing resolves names. -/
theorem rejected_host_exits_silently :
    (∀ (env : Env) (prog : Str) (opts : List Opt) (a : Args) (t host : Str) (port : Int)
      (data : Str),
      getopt_loop opts no_args = some a → a.target = some t →
      (a.payload.isSome ∨ a.file_name.isSome) →
      parse_target t = Thrown.ok (host, port) →
      payload_spec env.fs a.payload a.file_name = some data →
      0 ≤ env.socket_ret → (inet_pton host).1 ≤ 0 →
      main env prog opts =
        { events := Event.parse_target t :: (open_calls a.payload a.file_name ++
            [Event.socket env.socket_ret, Event.inet_pton host, Event.close env.socket_ret]),
          status := 1 }) ∧
    (inet_pton []).1 = 0 ∧
    (∀ host : Str, (∃ c ∈ host, isdigit c = false ∧ c ≠ '.') → (inet_pton host).1 = 0) := by
  refine ⟨?_, by decide, inet_pton_bad_char⟩
  intro env prog opts a t host port data hloop ht hsrc hp hload hsock hrej
  rw [main_parsed env prog opts a t host port data hloop ht hsrc hp hload]
  rcases send_payload_cases env host port data
    with ⟨h1, _⟩ | ⟨_, _, hs⟩ | ⟨_, h2, _⟩ | ⟨_, h2, _⟩
  · omega
  · rw [hs]
  · omega
  · omega

theorem rejected_host_exits_silently_witness :
    main env_listening "prog".toList [Opt.t ":80".toList, Opt.p "abc".toList] =
      { events := [Event.parse_target ":80".toList, Event.socket 3, Event.inet_pton [],
                   Event.close 3],
        status := 1 } ∧
    (inet_pton "localhost".toList).1 = 0 :=
  ⟨rejected_host_exits_silently.1 env_listening "prog".toList
      [Opt.t ":80".toList, Opt.p "abc".toList]
      { target := some ":80".toList, payload := some "abc".toList, file_name := none }
      ":80".toList [] 80 "abc".toList (by decide) rfl (by decide) (by decide) rfl (by decide)
      (by decide),
   rejected_host_exits_silently.2.2 "localhost".toList ⟨'l', by decide, by decide, by decide⟩⟩

/-- C9: in every run at most one socket is created; a created socket is closed
exactly once, as the last call before main returns; `connect`, `send` and `close`
are only called on the created socket; and a run that called `socket` never goes
through the exception handler. -/
theorem socket_closed_exactly_once (env : Env) (prog : Str) (opts : List Opt) :
    (main env prog opts).events.countP is_socket_call ≤ 1 ∧
    (∀ fd : Int, Event.socket fd ∈ (main env prog opts).events → 0 ≤ fd →
      (main env prog opts).events.getLast? = some (Event.close fd) ∧
      (main env prog opts).events.countP is_close_call = 1) ∧
    (∀ (fd : Int) (addr : sockaddr_in), Event.connect fd addr ∈ (main env prog opts).events →
      Event.socket fd ∈ (main env prog opts).events ∧ 0 ≤ fd) ∧
    (∀ (fd : Int) (buf : Str) (len : Nat), Event.send fd buf len ∈ (main env prog opts).events →
      Event.socket fd ∈ (main env prog opts).events ∧ 0 ≤ fd) ∧
    (∀ fd : Int, Event.close fd ∈ (main env prog opts).events →
      Event.socket fd ∈ (main env prog opts).events ∧ 0 ≤ fd) ∧
    (∀ (ret : Int) (e : Exn), Event.socket ret ∈ (main env prog opts).events →
      Event.cerr_error e ∉ (main env prog opts).events) := by
  rcases main_shape env prog opts with hm | ⟨a, t, e, _, _, _, _, hm⟩ |
      ⟨a, t, host, port, _, _, _, _, _, hm⟩ | ⟨a, t, host, port, data, _, _, _, _, _, hm⟩
  · rw [hm]; simp [is_socket_call]
  · rw [hm]; simp [is_socket_call]
  · rw [hm]
    rcases open_calls_cases a.payload a.file_name with ho | ⟨name, ho⟩ <;>
      rw [ho] <;> simp [is_socket_call, List.countP_cons]
  · rw [hm]
    rcases open_calls_cases a.payload a.file_name with ho | ⟨name, ho⟩ <;>
      rcases send_payload_cases env host port data
        with ⟨h1, hs⟩ | ⟨h1, _, hs⟩ | ⟨h1, _, _, hs⟩ | ⟨h1, _, _, hs⟩ <;>
      rw [ho, hs] <;>
      simp [is_socket_call, is_close_call, List.countP_cons, h1] <;>
      (intro fd _ _ hfd _ _; subst hfd; exact ⟨rfl, h1⟩)

theorem socket_closed_exactly_once_witness :
    (main env_refused "prog".toList
        [Opt.t "127.0.0.1:8080".toList, Opt.p "abc".toList]).events.getLast?
      = some (Event.close 3) ∧
    (main env_refused "prog".toList
        [Opt.t "127.0.0.1:8080".toList, Opt.p "abc".toList]).events.countP is_close_call = 1 :=
  (socket_closed_exactly_once env_refused "prog".toList
    [Opt.t "127.0.0.1:8080".toList, Opt.p "abc".toList]).2.1 3 (by decide) (by decide)

end TcpFuzzer
